import Mathlib

/-!
Verification of the y2k-lc3-tools core against its specification.

The Python sources are shallowly embedded:
* machine words are plain naturals with explicit reduction modulo 2^16 where
  the code performs it;
* the memory of a VM is a total function from cell index to stored word,
  mirroring the backing array of PyMemory (pyvm.py);
* the register file is a total function from register name to stored word;
* the observable I/O collaborators (output channels, process stdout, the
  keyboard stream) are explicit fields of a VM state record;
* Python exceptions are Option/Except failures.
-/

namespace Y2kLc3

/-- Modelled from the spec: the package constant UINT16_MAX lives in the
package init module, which is not among the sources.  The spec fixes the
memory at 65 536 cells over addresses 0x0000..0xFFFF and demands that all
register writes are taken modulo 2^16, which pins the constant to 2^16. -/
def UINT16_MAX : Nat := 65536

/-- Modelled from the spec: the package constant PC_START lives in the
package init module, which is not among the sources.  The spec fixes the
program counter after reset at 0x3000. -/
def PC_START : Nat := 0x3000

/-- asm.py: MAX_LINE_LENGTH = 4096. -/
def MAX_LINE_LENGTH : Nat := 4096

/-- vm.py: keyboard status register address. -/
def KBSR : Nat := 0xFE00

/-- vm.py: keyboard data register address. -/
def KBDR : Nat := 0xFE02

/-- vm_def.py: FL.POS flag value (1 shifted left by 0). -/
def FL.POS : Nat := 1

/-- The cell array backing a memory: cell index to stored word. -/
def Mem : Type := Nat → Nat

/-- A fresh PyMemory: every cell starts at 0 (pyvm.py PyMemory init builds
an array of UINT16_MAX zeros). -/
def memZero : Mem := fun _ => 0

/-- Raw write of one backing cell, as a Python array element assignment. -/
def cellSet (m : Mem) (a v : Nat) : Mem :=
  fun x => if x = a then v else m x

/-- pyvm.py PyMemory getitem: return the cell at address mod UINT16_MAX.
No other effect takes place (in particular no keyboard polling). -/
def PyMemory.getitem (m : Mem) (address : Nat) : Nat :=
  m (address % UINT16_MAX)

/-- pyvm.py PyMemory setitem: write the cell at address mod UINT16_MAX. -/
def PyMemory.setitem (m : Mem) (address v : Nat) : Mem :=
  cellSet m (address % UINT16_MAX) v

/-- The non-blocking keyboard collaborator as seen by one poll of vm.py:
check_key() answers keyAvail, and when a key is there getchar() yields
nextKey.  (Ctrl-C handling is the terminal collaborator layer and is out of
the model, following spec section 5.) -/
structure KeyInput where
  keyAvail : Bool
  nextKey : Nat

/-- vm.py Memory getitem (legacy backend): reduce the address mod
UINT16_MAX; if it is KBSR, poll the keyboard and update KBSR/KBDR first;
finally return the stored cell at the reduced address. -/
def LegacyMemory.getitem (m : Mem) (inp : KeyInput) (address : Nat) : Nat × Mem :=
  let a := address % UINT16_MAX
  if a = KBSR then
    let m2 := if inp.keyAvail
      then cellSet (cellSet m KBSR (1 <<< 15)) KBDR inp.nextKey
      else cellSet m KBSR 0
    (m2 a, m2)
  else (m a, m)

/-- vm_def.py: the register names (enum R). -/
inductive R where
  | R0 | R1 | R2 | R3 | R4 | R5 | R6 | R7 | PC | COND
deriving DecidableEq

/-- The members of enum R in declaration order (iteration order of
`for r in R`). -/
def R.all : List R :=
  [R.R0, R.R1, R.R2, R.R3, R.R4, R.R5, R.R6, R.R7, R.PC, R.COND]

/-- The register file: register name to stored word. -/
def Regs : Type := R → Nat

/-- pyvm.py PyRegisters setitem: store the written value modulo
UINT16_MAX.  The written value is an arbitrary Python integer, so it is an
Int here; what is stored is its nonnegative remainder. -/
def PyRegisters.setitem (rs : Regs) (k : R) (v : Int) : Regs :=
  fun x => if x = k then (v % (UINT16_MAX : Int)).toNat else rs x

/-- pyvm.py PyRegisters getitem: return the stored value. -/
def PyRegisters.getitem (rs : Regs) (k : R) : Nat := rs k

/-- sqlvm.py SqlRegisters setitem: the UPDATE stores the written value
modulo UINT16_MAX, exactly like the Python backend. -/
def SqlRegisters.setitem (rs : Regs) (k : R) (v : Int) : Regs :=
  fun x => if x = k then (v % (UINT16_MAX : Int)).toNat else rs x

/-- vm_abc.py Registers.reset: write 0 to every register in enum order,
then PC := PC_START and COND := FL.POS.value, every write going through
the backend setitem (hence modulo 2^16). -/
def Registers.reset (rs : Regs) : Regs :=
  let rs1 := R.all.foldl (fun acc r => PyRegisters.setitem acc r 0) rs
  let rs2 := PyRegisters.setitem rs1 R.PC (Int.ofNat PC_START)
  PyRegisters.setitem rs2 R.COND (Int.ofNat FL.POS)

/-- The state of a PyVM built from the vm_abc.py dataclass components:
the register file with its trace bookkeeping (vm_abc Registers), the
memory cells (PyMemory), the running flag (PyRunningState), the two
PyOutput channels, the process stdout that pyvm.py print/sys.stdout calls
reach, and the keyboard collaborator as a stream with a read position. -/
structure VMState where
  reg : Regs
  traces : List (List Nat)
  traceEnabled : Bool
  mem : Mem
  running : Bool
  outOutput : String
  outError : String
  stdout : String
  stdin : Nat → Nat
  stdinPos : Nat

/-- vm_abc.py VM.reset: write the RESET diagnostic to the error channel of
the output object, reset the registers, raise the running flag.  Nothing
else is touched. -/
def VM.reset (s : VMState) : VMState :=
  { s with
    outError := s.outError ++ "-- RESET --\n"
    reg := Registers.reset s.reg
    running := true }

/-- pyvm.py getchar(): pop the next character from the keyboard stream. -/
def VMState.getchar (s : VMState) : Nat × VMState :=
  (s.stdin s.stdinPos, { s with stdinPos := s.stdinPos + 1 })

/-- vm_def.py: the trap vectors (enum Trap). -/
inductive Trap where
  | GETC | OUT | PUTS | IN | PUTSP | HALT
deriving DecidableEq

/-- Constructing Trap(v): the enum lookup succeeds exactly on the six
defined vector values and raises ValueError otherwise. -/
def Trap.ofValue? (v : Nat) : Option Trap :=
  if v = 0x20 then some .GETC
  else if v = 0x21 then some .OUT
  else if v = 0x22 then some .PUTS
  else if v = 0x23 then some .IN
  else if v = 0x24 then some .PUTSP
  else if v = 0x25 then some .HALT
  else none

/-- pyvm.py trap_getc: R0 := ord(getchar()). -/
def trap_getc (s : VMState) : VMState :=
  let (c, s1) := s.getchar
  { s1 with reg := PyRegisters.setitem s1.reg R.R0 (Int.ofNat c) }

/-- pyvm.py trap_out: write chr(R0 AND 0xFF) to the output channel. -/
def trap_out (s : VMState) : VMState :=
  { s with outOutput :=
      s.outOutput ++ String.singleton (Char.ofNat (Nat.land (s.reg R.R0) 0xFF)) }

/-- pyvm.py trap_puts loop: from address i up to len(mem), stop at a zero
word, otherwise emit chr of the word.  (A word in the surrogate range has
no Lean Char; Char.ofNat then yields the zero character.) -/
def trapPutsGo (m : Mem) (i : Nat) : String :=
  if _h : i < UINT16_MAX then
    let c := PyMemory.getitem m i
    if c = 0 then "" else String.singleton (Char.ofNat c) ++ trapPutsGo m (i + 1)
  else ""
termination_by UINT16_MAX - i
decreasing_by simp_wf; omega

/-- pyvm.py trap_puts: write the zero-terminated word string starting at
R0 to the output channel. -/
def trap_puts (s : VMState) : VMState :=
  { s with outOutput := s.outOutput ++ trapPutsGo s.mem (s.reg R.R0) }

/-- pyvm.py trap_in: prompt on the output channel, read one character,
echo it, store it in R0. -/
def trap_in (s : VMState) : VMState :=
  let s1 := { s with outOutput := s.outOutput ++ "Enter a character: " }
  let (c, s2) := s1.getchar
  { s2 with
    outOutput := s2.outOutput ++ String.singleton (Char.ofNat c)
    reg := PyRegisters.setitem s2.reg R.R0 (Int.ofNat c) }

/-- pyvm.py trap_putsp loop: emit the low byte then, when nonzero, the
high byte of each word, stopping at a zero word; this handler writes to
the process stdout (sys.stdout), not to the VM output object. -/
def trapPutspGo (m : Mem) (i : Nat) : String :=
  if _h : i < UINT16_MAX then
    let c := PyMemory.getitem m i
    if c = 0 then ""
    else
      String.singleton (Char.ofNat (Nat.land c 0xFF)) ++
        (if c >>> 8 ≠ 0 then String.singleton (Char.ofNat (c >>> 8)) else "") ++
        trapPutspGo m (i + 1)
  else ""
termination_by UINT16_MAX - i
decreasing_by simp_wf; omega

/-- pyvm.py trap_putsp: write the packed string starting at R0 to the
process stdout. -/
def trap_putsp (s : VMState) : VMState :=
  { s with stdout := s.stdout ++ trapPutspGo s.mem (s.reg R.R0) }

/-- pyvm.py trap_halt: print goes to the process stdout with an extra
trailing newline (the out parameter of trap_halt is unused in the source),
then the running flag is cleared. -/
def trap_halt (s : VMState) : VMState :=
  { s with
    stdout := s.stdout ++ "-- HALT --\n\n"
    running := false }

/-- pyvm.py trap: construct Trap(instr AND 0xFF) - a ValueError (None
here) when the vector is undefined - then dispatch to the handler. -/
def pyTrap (instr : Nat) (s : VMState) : Option VMState :=
  match Trap.ofValue? (Nat.land instr 0xFF) with
  | none => none
  | some t =>
    some (match t with
      | .GETC => trap_getc s
      | .OUT => trap_out s
      | .PUTS => trap_puts s
      | .IN => trap_in s
      | .PUTSP => trap_putsp s
      | .HALT => trap_halt s)

/-- The two failure modes of vm_abc.py Memory.load_binary, plus the
assertion guarding Memory.load_words_at_address. -/
inductive LoadError where
  | tooLarge
  | oddSize
  | assertFailed
deriving DecidableEq

/-- int.from_bytes of the first two bytes, big-endian (Python handles
images shorter than two bytes by padding with nothing). -/
def beOrigin : List Nat → Nat
  | [] => 0
  | [b0] => b0
  | b0 :: b1 :: _ => b0 * 256 + b1

/-- array("H", payload) followed by byteswap(): consecutive byte pairs
read as big-endian 16-bit words (a trailing odd byte never reaches this
point in the source). -/
def bytesToWordsBE : List Nat → List Nat
  | b0 :: b1 :: rest => (b0 * 256 + b1) :: bytesToWordsBE rest
  | _ => []

/-- data.byteswap() followed by tobytes(): the big-endian serialization
of a word array. -/
def wordsToBytesBE : List Nat → List Nat
  | [] => []
  | w :: ws => w / 256 :: w % 256 :: wordsToBytesBE ws

/-- The write loop of vm_abc.py Memory.load_words_at_address: for i, v in
enumerate(words, address): self[i] = v, through PyMemory setitem. -/
def writeSeq : Mem → Nat → List Nat → Mem
  | m, _, [] => m
  | m, a, w :: ws => writeSeq (PyMemory.setitem m a w) (a + 1) ws

/-- vm_abc.py Memory.load_words_at_address: assert the words fit below
UINT16_MAX (an assertion failure is a raised exception, None here), then
write them sequentially starting at the given address. -/
def Memory.load_words_at_address (m : Mem) (words : List Nat) (address : Nat) :
    Option Mem :=
  if words.length + address ≤ UINT16_MAX then some (writeSeq m address words)
  else none

/-- vm_abc.py Memory.load_binary: origin from the first two bytes
big-endian; raise tooLarge when the payload exceeds
(UINT16_MAX - origin) * 2 bytes, then oddSize when the payload length is
odd; otherwise write the big-endian payload words starting at origin.
The returned memory is the original one whenever an error is raised,
because the source performs both checks before any write. -/
def Memory.load_binary (m : Mem) (b : List Nat) : Except LoadError Unit × Mem :=
  let origin := beOrigin b
  let payload := b.drop 2
  if (UINT16_MAX - origin) * 2 < payload.length then
    (Except.error LoadError.tooLarge, m)
  else if payload.length % 2 ≠ 0 then
    (Except.error LoadError.oddSize, m)
  else
    match Memory.load_words_at_address m (bytesToWordsBE payload) origin with
    | some m2 => (Except.ok (), m2)
    | none => (Except.error LoadError.assertFailed, m)

/-- asm.py pass one length check on one source line:
assert len(line) < MAX_LINE_LENGTH. -/
def lineLengthOk (line : String) : Bool :=
  line.length < MAX_LINE_LENGTH

/-- asm.py Type: the token kinds. -/
inductive TokT where
  | label | op | dot | const | reg | str
deriving DecidableEq

/-- The value slot of an asm.py Token: a Python str or int. -/
inductive TokV where
  | s (v : String)
  | i (v : Int)
deriving DecidableEq

/-- asm.py Token = namedtuple(Tok, t, v). -/
structure Token where
  t : TokT
  v : TokV
deriving DecidableEq

/-- asm.py REGS. -/
def REGS : List (String × Nat) :=
  [("R0", 0x0), ("R1", 0x1), ("R2", 0x2), ("R3", 0x3),
   ("R4", 0x4), ("R5", 0x5), ("R6", 0x6), ("R7", 0x7)]

/-- asm.py TRAPS. -/
def TRAPS : List (String × Nat) :=
  [("GETC", 0x20), ("OUT", 0x21), ("PUTS", 0x22),
   ("IN", 0x23), ("PUTSP", 0x24), ("HALT", 0x25)]

/-- asm.py OPS: opcode mnemonics to 4-bit opcodes, with the trap
mnemonics merged in (mapping to their vectors). -/
def OPS : List (String × Nat) :=
  [("BR", 0x0), ("BRn", 0x0), ("BRz", 0x0), ("BRp", 0x0),
   ("BRzp", 0x0), ("BRnp", 0x0), ("BRnz", 0x0), ("BRnzp", 0x0),
   ("ADD", 0x1), ("LD", 0x2), ("ST", 0x3), ("JSR", 0x4), ("JSRR", 0x4),
   ("AND", 0x5), ("LDR", 0x6), ("STR", 0x7), ("RTI", 0x8), ("NOT", 0x9),
   ("LDI", 0xA), ("STI", 0xB), ("RET", 0xC), ("JMP", 0xC), ("RES", 0xD),
   ("LEA", 0xE), ("TRAP", 0xF)] ++ TRAPS

/-- The symbol table is a Python dict from label strings to locations. -/
def SymTable : Type := String → Option Int

/-- Reading a token value as a string; anything else is a Python type or
key error at the use site. -/
def tokStr (tk : Token) : Option String :=
  match tk.v with
  | .s v => some v
  | .i _ => none

/-- Reading a token value as an int; a string where an int is required is
a Python type error at the use site. -/
def tokInt (tk : Token) : Option Int :=
  match tk.v with
  | .i v => some v
  | .s _ => none

/-- REGS[tok.v]: a KeyError (None) unless the value is one of R0..R7. -/
def regsOf (tk : Token) : Option Nat :=
  match tk.v with
  | .s name => REGS.lookup name
  | .i _ => none

/-- sym[tok.v]: a KeyError (None) unless the value is a string bound in
the symbol table. -/
def symOf (sym : SymTable) (tk : Token) : Option Int :=
  match tk.v with
  | .s name => sym name
  | .i _ => none

/-- array("H").append: accepts exactly the integers 0 <= w < 2^16 and
raises OverflowError otherwise. -/
def appendH (data : List Nat) (w : Int) : Option (List Nat) :=
  if 0 ≤ w ∧ w < 65536 then some (data ++ [w.toNat]) else none

/-- asm.py encode_ldr_str: DR, BaseR, then the two's complement offset6
computed as (UINT16_MAX + v) AND 0b111111, after asserting v < 2^5. -/
def encode_ldr_str (op : Nat) (_sym : SymTable) (_lc : Int) (toks : List Token) :
    Option Nat := do
  let t1 ← toks[1]?
  let dr ← regsOf t1
  let t2 ← toks[2]?
  let base ← regsOf t2
  let t3 ← toks[3]?
  let n ← tokInt t3
  if n < 32 then
    some (op ||| (dr <<< 9) ||| (base <<< 6) ||| ((65536 + n) % (64 : Int)).toNat)
  else none

/-- asm.py encode_add_and: register or immediate form, the immediate as
(UINT16_MAX + v) AND 0b11111 after asserting v < 2^5. -/
def encode_add_and (op : Nat) (_sym : SymTable) (_lc : Int) (toks : List Token) :
    Option Nat := do
  let t1 ← toks[1]?
  let dr ← regsOf t1
  let t2 ← toks[2]?
  let sr1 ← regsOf t2
  let t3 ← toks[3]?
  if t3.t = TokT.reg then
    let sr2 ← regsOf t3
    some (op ||| (dr <<< 9) ||| (sr1 <<< 6) ||| sr2)
  else
    let n ← tokInt t3
    if n < 32 then
      some (op ||| (dr <<< 9) ||| (sr1 <<< 6) ||| (1 <<< 5) |||
        ((65536 + n) % (32 : Int)).toNat)
    else none

/-- asm.py encode_br: condition bits from the mnemonic (bare BR sets all
three), then a label offset relative to lc or a constant, masked to nine
bits. -/
def encode_br (op : Nat) (sym : SymTable) (lc : Int) (toks : List Token) :
    Option Nat := do
  let t0 ← toks[0]?
  let name ← tokStr t0
  let opA := if name = "BR" then op ||| (1 <<< 11) ||| (1 <<< 10) ||| (1 <<< 9) else op
  let opB := if name.contains 'n' then opA ||| (1 <<< 11) else opA
  let opC := if name.contains 'z' then opB ||| (1 <<< 10) else opB
  let opD := if name.contains 'p' then opC ||| (1 <<< 9) else opC
  let t1 ← toks[1]?
  if t1.t = TokT.label then
    let v ← symOf sym t1
    some (opD ||| ((v - lc) % (512 : Int)).toNat)
  else if t1.t = TokT.const then
    let n ← tokInt t1
    some (opD ||| (n % (512 : Int)).toNat)
  else none

/-- asm.py encode_ld_st: DR and a label offset relative to lc, masked to
nine bits. -/
def encode_ld_st (op : Nat) (sym : SymTable) (lc : Int) (toks : List Token) :
    Option Nat := do
  let t1 ← toks[1]?
  let dr ← regsOf t1
  let t2 ← toks[2]?
  let v ← symOf sym t2
  some (op ||| (dr <<< 9) ||| ((v - lc) % (512 : Int)).toNat)

/-- asm.py encode_traps: a trap mnemonic encodes as the TRAP opcode with
its vector, ignoring the op argument. -/
def encode_traps (_op : Nat) (_sym : SymTable) (_lc : Int) (toks : List Token) :
    Option Nat := do
  let t0 ← toks[0]?
  let name ← tokStr t0
  let vec ← TRAPS.lookup name
  some ((0xF <<< 12) ||| vec)

/-- asm.py encode: the dispatch table from mnemonic to encoder.  A
mnemonic absent from the table (only RES among the OPS keys) is a
KeyError. -/
def encodeDispatch (name : String) (op : Nat) (sym : SymTable) (lc : Int)
    (toks : List Token) : Option Nat :=
  if name = "RTI" then some op
  else if name = "TRAP" then do
    let t1 ← toks[1]?
    let n ← tokInt t1
    some (op ||| (n % (256 : Int)).toNat)
  else if name = "RET" then some (op ||| (7 <<< 6))
  else if name = "JMP" then do
    let t1 ← toks[1]?
    let r ← regsOf t1
    some (op ||| (r <<< 6))
  else if name = "NOT" then do
    let t1 ← toks[1]?
    let dr ← regsOf t1
    let t2 ← toks[2]?
    let sr ← regsOf t2
    some (op ||| (dr <<< 9) ||| (sr <<< 6) ||| 0x3F)
  else if name = "JSR" then do
    let t1 ← toks[1]?
    let v ← symOf sym t1
    some (op ||| (1 <<< 11) ||| ((v - lc) % (2048 : Int)).toNat)
  else if name = "JSRR" then do
    let t1 ← toks[1]?
    let r ← regsOf t1
    some (op ||| (r <<< 6))
  else if name = "LDR" ∨ name = "STR" then encode_ldr_str op sym lc toks
  else if name = "AND" ∨ name = "ADD" then encode_add_and op sym lc toks
  else if name = "BR" ∨ name = "BRn" ∨ name = "BRz" ∨ name = "BRp" ∨
      name = "BRzp" ∨ name = "BRnp" ∨ name = "BRnz" ∨ name = "BRnzp" then
    encode_br op sym lc toks
  else if name = "LD" ∨ name = "LEA" ∨ name = "LDI" ∨ name = "ST" ∨
      name = "STI" then
    encode_ld_st op sym lc toks
  else if (TRAPS.lookup name).isSome then encode_traps op sym lc toks
  else none

/-- The UTF-8 bytes of a directive string argument. -/
def strBytes (s : String) : List Nat :=
  s.toUTF8.data.toList.map (fun b => b.toNat)

/-- asm.py pass two CONDS applied to one driving token list: the three
data directives append their words, an opcode mnemonic appends its
encoding, anything else is a KeyError. -/
def condApply (sym : SymTable) (data : List Nat) (toks : List Token) (lc : Int) :
    Option (List Nat) := do
  let t0 ← toks[0]?
  match t0.v with
  | .i _ => none
  | .s name =>
    if name = ".BLKW" then do
      let t1 ← toks[1]?
      let n ← tokInt t1
      some (data ++ List.replicate n.toNat 0)
    else if name = ".FILL" then
      match toks[1]? with
      | none => none
      | some t1 =>
        if t1.t = TokT.const then do
          let n ← tokInt t1
          appendH data n
        else if t1.t = TokT.label then do
          let v ← symOf sym t1
          appendH data v
        else some data
    else if name = ".STRINGZ" then
      match toks[1]? with
      | none => none
      | some t1 =>
        match t1.v with
        | .s str => some (data ++ strBytes str ++ [0])
        | .i _ => none
    else
      match OPS.lookup name with
      | some op => do
        let w ← encodeDispatch name (op <<< 12) sym lc toks
        appendH data (Int.ofNat w)
      | none => none

/-- The emission loop of asm.py asm_pass_two over the recorded lines
after the .ORIG line: stop at .END, dispatch on the driving token (the
first token, or the second when the first is a label sharing the line). -/
def passTwoLoop (sym : SymTable) : List (List Token × Int) → List Nat →
    Option (List Nat)
  | [], data => some data
  | (toks, lc) :: rest, data => do
    let t0 ← toks[0]?
    if t0.v = TokV.s ".END" then some data
    else if t0.t ≠ TokT.label then do
      let d2 ← condApply sym data toks lc
      passTwoLoop sym rest d2
    else if toks.length ≠ 1 then do
      let d2 ← condApply sym data (toks.drop 1) lc
      passTwoLoop sym rest d2
    else passTwoLoop sym rest data

/-- asm.py asm_pass_two: start the word array with the origin (the value
of the second token of the first recorded line), then emit every
following line. -/
def asm_pass_two (sym : SymTable) (lines : List (List Token × Int)) :
    Option (List Nat) := do
  let first ← lines[0]?
  let t1 ← first.1[1]?
  let origin ← tokInt t1
  let data0 ← appendH [] origin
  passTwoLoop sym (lines.drop 1) data0

/-- asm.py assemble, from the pass-one output onward: run pass two and
serialize the word array big-endian (byteswap + tobytes), returning it
with the symbol table. -/
def assembleFromPassOne (sym : SymTable) (lines : List (List Token × Int)) :
    Option (SymTable × List Nat) :=
  (asm_pass_two sym lines).map (fun w => (sym, wordsToBytesBE w))

/-- A freshly constructed PyVM state: zero registers, zero memory, empty
buffers, running (PyRunningState starts true), keyboard stream of zeros. -/
def vmS0 : VMState :=
  { reg := fun _ => 0
    traces := []
    traceEnabled := false
    mem := memZero
    running := true
    outOutput := ""
    outError := ""
    stdout := ""
    stdin := fun _ => 0
    stdinPos := 0 }

/-- A VM state whose trace buffer already holds one snapshot. -/
def vmTraced : VMState := { vmS0 with traces := [[1]] }

/-- A memory with the word 5 poked into the KBSR cell. -/
def kbsrPoked : Mem := PyMemory.setitem memZero 0xFE00 5

/-- A source line of exactly MAX_LINE_LENGTH characters. -/
def longLine : String := String.mk (List.replicate 4096 'a')

/-- An empty symbol table. -/
def symW : SymTable := fun _ => none

/-- Pass-one output of the two-line program .ORIG x3000 / HALT. -/
def linesW : List (List Token × Int) :=
  [([Token.mk TokT.dot (TokV.s ".ORIG"), Token.mk TokT.const (TokV.i 0x3000)],
      0x3000),
   ([Token.mk TokT.op (TokV.s "HALT")], 0x3001)]

/-- Pass-one output of the program .ORIG xFFFF / HALT / HALT, which
assembles fine but does not fit between its origin and the memory top. -/
def linesBad : List (List Token × Int) :=
  [([Token.mk TokT.dot (TokV.s ".ORIG"), Token.mk TokT.const (TokV.i 0xFFFF)],
      0xFFFF),
   ([Token.mk TokT.op (TokV.s "HALT")], 0x10000),
   ([Token.mk TokT.op (TokV.s "HALT")], 0x10001)]

theorem uMAX_eq : UINT16_MAX = 65536 := rfl

theorem wordsToBytesBE_length (W : List Nat) :
    (wordsToBytesBE W).length = 2 * W.length := by
  induction W with
  | nil => rfl
  | cons w ws ih => simp [wordsToBytesBE, ih]; omega

theorem bytesToWordsBE_wordsToBytesBE (W : List Nat) :
    bytesToWordsBE (wordsToBytesBE W) = W := by
  induction W with
  | nil => rfl
  | cons w ws ih =>
    show bytesToWordsBE (w / 256 :: w % 256 :: wordsToBytesBE ws) = w :: ws
    simp [bytesToWordsBE, ih]
    omega

theorem wordsToBytesBE_bytes_lt (W : List Nat) (hW : ∀ w ∈ W, w < 65536) :
    ∀ x ∈ wordsToBytesBE W, x < 256 := by
  induction W with
  | nil => intro x hx; simp [wordsToBytesBE] at hx
  | cons w ws ih =>
    intro x hx
    have hw := hW w (by simp)
    simp [wordsToBytesBE] at hx
    rcases hx with h | h | h
    · omega
    · omega
    · exact ih (fun u hu => hW u (by simp [hu])) x h

theorem bytesToWordsBE_length : ∀ l : List Nat,
    (bytesToWordsBE l).length = l.length / 2
  | [] => by simp [bytesToWordsBE]
  | [b0] => by simp [bytesToWordsBE]
  | b0 :: b1 :: rest => by
    have ih := bytesToWordsBE_length rest
    simp [bytesToWordsBE, ih]
    omega

theorem bytesToWordsBE_getD : ∀ (l : List Nat) (i : Nat), 2 * i + 1 < l.length →
    (bytesToWordsBE l).getD i 0 = l.getD (2 * i) 0 * 256 + l.getD (2 * i + 1) 0
  | [], _, h => by simp at h
  | [b0], i, h => by
    simp only [List.length_cons, List.length_nil] at h
    exact absurd h (by omega)
  | b0 :: b1 :: rest, 0, _ => by simp [bytesToWordsBE]
  | b0 :: b1 :: rest, (n + 1), h => by
    have hlen : 2 * n + 1 < rest.length := by
      simp only [List.length_cons] at h
      omega
    have ih := bytesToWordsBE_getD rest n hlen
    have h2 : 2 * (n + 1) = 2 * n + 1 + 1 := by ring
    rw [h2]
    simp only [bytesToWordsBE, List.getD_cons_succ]
    exact ih

theorem writeSeq_apply_lt (ws : List Nat) : ∀ (m : Mem) (a x : Nat),
    a + ws.length ≤ 65536 → x < a → writeSeq m a ws x = m x := by
  induction ws with
  | nil => intro m a x _ _; rfl
  | cons w tail ih =>
    intro m a x hle hx
    have hlen : (w :: tail).length = tail.length + 1 := rfl
    rw [hlen] at hle
    show writeSeq (PyMemory.setitem m a w) (a + 1) tail x = m x
    rw [ih (PyMemory.setitem m a w) (a + 1) x (by omega) (by omega)]
    show (if x = a % UINT16_MAX then w else m x) = m x
    rw [uMAX_eq, Nat.mod_eq_of_lt (by omega), if_neg (by omega)]

theorem writeSeq_get (ws : List Nat) : ∀ (m : Mem) (a i : Nat),
    a + ws.length ≤ 65536 → i < ws.length →
    writeSeq m a ws (a + i) = ws.getD i 0 := by
  induction ws with
  | nil => intro m a i _ hi; simp at hi
  | cons w tail ih =>
    intro m a i hle hi
    have hlen : (w :: tail).length = tail.length + 1 := rfl
    rw [hlen] at hle
    rw [hlen] at hi
    cases i with
    | zero =>
      show writeSeq (PyMemory.setitem m a w) (a + 1) tail (a + 0) = w
      rw [writeSeq_apply_lt tail _ (a + 1) (a + 0) (by omega) (by omega)]
      show (if a + 0 = a % UINT16_MAX then w else m (a + 0)) = w
      rw [uMAX_eq, Nat.mod_eq_of_lt (by omega), if_pos (by omega)]
    | succ n =>
      have hstep : a + (n + 1) = (a + 1) + n := by omega
      rw [hstep]
      show writeSeq (PyMemory.setitem m a w) (a + 1) tail ((a + 1) + n) =
        (w :: tail).getD (n + 1) 0
      rw [ih _ (a + 1) n (by omega) (by omega)]
      simp [List.getD_cons_succ]

theorem beOrigin_lt (b : List Nat) (hb : ∀ x ∈ b, x < 256) :
    beOrigin b < 65536 := by
  cases b with
  | nil => simp [beOrigin]
  | cons b0 t =>
    cases t with
    | nil =>
      have h0 := hb b0 (by simp)
      simp [beOrigin]
      omega
    | cons b1 r =>
      have h0 := hb b0 (by simp)
      have h1 := hb b1 (by simp)
      simp [beOrigin]
      omega

/-- Claim C1, legacy part: a read of an address congruent to KBSR through
the vm.py Memory polls the keyboard first - on a key it stores 0x8000 in
KBSR and the key in KBDR, otherwise it stores 0 in KBSR and leaves KBDR
alone - and returns the freshly stored KBSR value. -/
theorem c1_kbsr_poll_legacy (m : Mem) (inp : KeyInput) (address : Nat)
    (h : address % UINT16_MAX = KBSR) :
    (LegacyMemory.getitem m inp address).2 KBSR =
      (if inp.keyAvail then 0x8000 else 0) ∧
    (LegacyMemory.getitem m inp address).2 KBDR =
      (if inp.keyAvail then inp.nextKey else m KBDR) ∧
    (LegacyMemory.getitem m inp address).1 =
      (if inp.keyAvail then 0x8000 else 0) := by
  cases hk : inp.keyAvail <;>
    simp [LegacyMemory.getitem, h, hk, cellSet, KBSR, KBDR]

/-- Witness for c1_kbsr_poll_legacy: a concrete read of 0xFE00 with a key
(code 65) available on a zero memory. -/
theorem c1_kbsr_poll_legacy_witness :
    (0xFE00 % UINT16_MAX = KBSR) ∧
    ((LegacyMemory.getitem memZero ⟨true, 65⟩ 0xFE00).2 KBSR =
        (if (KeyInput.mk true 65).keyAvail then 0x8000 else 0) ∧
      (LegacyMemory.getitem memZero ⟨true, 65⟩ 0xFE00).2 KBDR =
        (if (KeyInput.mk true 65).keyAvail then (KeyInput.mk true 65).nextKey
          else memZero KBDR) ∧
      (LegacyMemory.getitem memZero ⟨true, 65⟩ 0xFE00).1 =
        (if (KeyInput.mk true 65).keyAvail then 0x8000 else 0)) :=
  ⟨by decide, c1_kbsr_poll_legacy memZero ⟨true, 65⟩ 0xFE00 (by decide)⟩

/-- Claim C1 counterexample: a PyMemory read of KBSR does no polling at
all.  With 5 stored at 0xFE00, the read returns 5, which is neither
0x8000 nor 0, the only values the claim allows the returned KBSR to
hold. -/
theorem c1_pymemory_counterexample :
    PyMemory.getitem kbsrPoked 0xFE00 = 5 ∧
    ¬(PyMemory.getitem kbsrPoked 0xFE00 = 0x8000 ∨
      PyMemory.getitem kbsrPoked 0xFE00 = 0) := by
  constructor
  · rfl
  · decide

/-- Claim C4, amended: after VM.reset the general registers are 0, PC is
0x3000, COND is POS (1) and the running flag is up; the trace buffer is
left exactly as it was, not cleared. -/
theorem c4_reset_state (s : VMState) :
    (VM.reset s).reg R.R0 = 0 ∧ (VM.reset s).reg R.R1 = 0 ∧
    (VM.reset s).reg R.R2 = 0 ∧ (VM.reset s).reg R.R3 = 0 ∧
    (VM.reset s).reg R.R4 = 0 ∧ (VM.reset s).reg R.R5 = 0 ∧
    (VM.reset s).reg R.R6 = 0 ∧ (VM.reset s).reg R.R7 = 0 ∧
    (VM.reset s).reg R.PC = 0x3000 ∧ (VM.reset s).reg R.COND = 1 ∧
    (VM.reset s).running = true ∧ (VM.reset s).traces = s.traces :=
  ⟨rfl, rfl, rfl, rfl, rfl, rfl, rfl, rfl, rfl, rfl, rfl, rfl⟩

/-- Claim C4 counterexample: resetting a VM whose trace buffer holds a
snapshot leaves that snapshot in place, so the trace buffer is not empty
after reset. -/
theorem c4_trace_not_cleared :
    (VM.reset vmTraced).traces = [[1]] ∧ ([[1]] : List (List Nat)) ≠ [] :=
  ⟨rfl, by decide⟩

/-- Claim C5 (code bug): executing TRAP 0x25 on a running PyVM clears the
running flag but writes nothing to the error channel of the VM output
object; the halt banner goes to the process stdout via print, with an
extra newline. -/
theorem c5_halt_diagnostic_goes_to_stdout :
    (pyTrap 0xF025 vmS0).map VMState.outError = some "" ∧
    (pyTrap 0xF025 vmS0).map VMState.stdout = some "-- HALT --\n\n" ∧
    (pyTrap 0xF025 vmS0).map VMState.running = some false :=
  ⟨rfl, rfl, rfl⟩

/-- Claim C6: a register write through the Python backend or the SQL
backend stores the written integer modulo 2^16, and that is what a
subsequent read of the same register returns. -/
theorem c6_register_write_mod (rs : Regs) (k : R) (v : Int) :
    (PyRegisters.getitem (PyRegisters.setitem rs k v) k : Int) = v % 2 ^ 16 ∧
    (PyRegisters.getitem (SqlRegisters.setitem rs k v) k : Int) = v % 2 ^ 16 := by
  constructor <;>
    · simp [PyRegisters.getitem, PyRegisters.setitem, SqlRegisters.setitem,
        UINT16_MAX]
      omega

/-- Claim C7, amended: pass one rejects a line exactly when its length
reaches MAX_LINE_LENGTH, so lines of up to 4095 characters pass the
check and a 4096-character line is already rejected. -/
theorem c7_line_length_check (line : String) :
    lineLengthOk line = false ↔ MAX_LINE_LENGTH ≤ line.length := by
  simp [lineLengthOk, MAX_LINE_LENGTH]

/-- Claim C7 counterexample: a line of exactly 4096 characters is
rejected by the length check, though the claim says lines of length at
most 4096 are accepted. -/
theorem c7_line_4096_rejected :
    longLine.length = 4096 ∧ lineLengthOk longLine = false := by
  have h0 : longLine.length = (List.replicate 4096 'a').length := rfl
  have h : longLine.length = 4096 := by rw [h0, List.length_replicate]
  exact ⟨h, by simp [lineLengthOk, MAX_LINE_LENGTH, h]⟩

/-- Claim C8: when load_binary raises either image error, every memory
cell still holds its previous value - both size checks happen before any
write. -/
theorem c8_load_error_preserves_memory (m : Mem) (b : List Nat) (e : LoadError)
    (h : (Memory.load_binary m b).1 = Except.error e) :
    (Memory.load_binary m b).2 = m := by
  simp only [Memory.load_binary] at h ⊢
  split_ifs at h ⊢
  · rfl
  · rfl
  · cases hw : Memory.load_words_at_address m (bytesToWordsBE (b.drop 2))
        (beOrigin b) with
    | some m2 => rw [hw] at h; simp at h
    | none => rfl

/-- Witness for c8_load_error_preserves_memory: a three-byte image whose
one-byte payload triggers the odd-size error and leaves the zero memory
untouched. -/
theorem c8_load_error_preserves_memory_witness :
    ((Memory.load_binary memZero [0x30, 0x00, 0xAB]).1 =
      Except.error LoadError.oddSize) ∧
    (Memory.load_binary memZero [0x30, 0x00, 0xAB]).2 = memZero :=
  ⟨rfl, c8_load_error_preserves_memory memZero [0x30, 0x00, 0xAB]
    LoadError.oddSize rfl⟩

/-- Claim C9: the trap dispatch succeeds exactly on the six defined
vectors 0x20..0x25 of the low byte of the instruction; any other vector
raises (the enum construction fails), and a defined vector never does. -/
theorem c9_trap_vector_dispatch (instr : Nat) (s : VMState) :
    (pyTrap instr s).isSome = true ↔
      (Nat.land instr 0xFF = 0x20 ∨ Nat.land instr 0xFF = 0x21 ∨
       Nat.land instr 0xFF = 0x22 ∨ Nat.land instr 0xFF = 0x23 ∨
       Nat.land instr 0xFF = 0x24 ∨ Nat.land instr 0xFF = 0x25) := by
  have h : ∀ v : Nat, (Trap.ofValue? v).isSome = true ↔
      (v = 0x20 ∨ v = 0x21 ∨ v = 0x22 ∨ v = 0x23 ∨ v = 0x24 ∨ v = 0x25) := by
    intro v
    unfold Trap.ofValue?
    split_ifs <;> simp_all
  have hiso : (pyTrap instr s).isSome =
      (Trap.ofValue? (Nat.land instr 0xFF)).isSome := by
    unfold pyTrap
    cases hE : Trap.ofValue? (Nat.land instr 0xFF) <;> simp [hE]
  rw [hiso]
  exact h _

/-- Claim C10: VM.reset leaves every memory cell and every channel other
than the diagnostic one untouched: memory, program output, process
stdout, trace buffer and keyboard position are all unchanged. -/
theorem c10_reset_preserves_memory (s : VMState) :
    (VM.reset s).mem = s.mem ∧ (VM.reset s).outOutput = s.outOutput ∧
    (VM.reset s).stdout = s.stdout ∧ (VM.reset s).traces = s.traces ∧
    (VM.reset s).stdinPos = s.stdinPos :=
  ⟨rfl, rfl, rfl, rfl, rfl⟩

/-- Claim C2, amended: for a byte string b, load_binary raises the
image-too-large error exactly when the payload exceeds
(0x10000 - origin) words (not 0xFFFF - origin); when not too large it
raises the odd-size error exactly when the payload length is odd; and
otherwise it succeeds, leaving mem[origin + i] equal to the i-th
big-endian payload word for every in-range i. -/
theorem c2_load_binary_contract (m : Mem) (b : List Nat)
    (hb : ∀ x ∈ b, x < 256) :
    ((Memory.load_binary m b).1 = Except.error LoadError.tooLarge ↔
      (UINT16_MAX - beOrigin b) * 2 < (b.drop 2).length) ∧
    ((b.drop 2).length ≤ (UINT16_MAX - beOrigin b) * 2 →
      ((Memory.load_binary m b).1 = Except.error LoadError.oddSize ↔
        (b.drop 2).length % 2 = 1)) ∧
    ((b.drop 2).length ≤ (UINT16_MAX - beOrigin b) * 2 →
      (b.drop 2).length % 2 = 0 →
      (Memory.load_binary m b).1 = Except.ok () ∧
      ∀ i, 2 * i + 1 < (b.drop 2).length →
        PyMemory.getitem (Memory.load_binary m b).2 (beOrigin b + i) =
          (b.drop 2).getD (2 * i) 0 * 256 + (b.drop 2).getD (2 * i + 1) 0) := by
  have hor : beOrigin b < 65536 := beOrigin_lt b hb
  have hU : UINT16_MAX = 65536 := rfl
  by_cases h1 : (UINT16_MAX - beOrigin b) * 2 < (b.drop 2).length
  · have hres : Memory.load_binary m b = (Except.error LoadError.tooLarge, m) := by
      simp only [Memory.load_binary]
      rw [if_pos h1]
    refine ⟨?_, ?_, ?_⟩
    · rw [hres]
      exact iff_of_true rfl h1
    · intro hle
      exact absurd h1 (by omega)
    · intro hle
      exact absurd h1 (by omega)
  · by_cases h2 : (b.drop 2).length % 2 = 0
    · have hfit : (bytesToWordsBE (b.drop 2)).length + beOrigin b ≤ UINT16_MAX := by
        rw [bytesToWordsBE_length, hU]
        rw [hU] at h1
        omega
      have hres : Memory.load_binary m b =
          (Except.ok (), writeSeq m (beOrigin b) (bytesToWordsBE (b.drop 2))) := by
        simp only [Memory.load_binary]
        rw [if_neg h1, if_neg (by omega), Memory.load_words_at_address,
          if_pos hfit]
      refine ⟨?_, ?_, ?_⟩
      · rw [hres]
        exact iff_of_false (by simp) h1
      · intro _
        rw [hres]
        exact iff_of_false (by simp) (by omega)
      · intro _ _
        refine ⟨by rw [hres], ?_⟩
        intro i hi
        have hwl : (bytesToWordsBE (b.drop 2)).length = (b.drop 2).length / 2 :=
          bytesToWordsBE_length _
        have hiw : i < (bytesToWordsBE (b.drop 2)).length := by rw [hwl]; omega
        have hget := writeSeq_get (bytesToWordsBE (b.drop 2)) m (beOrigin b) i
          (by rw [hU] at hfit; omega) hiw
        rw [hres]
        show writeSeq m (beOrigin b) (bytesToWordsBE (b.drop 2))
          ((beOrigin b + i) % UINT16_MAX) = _
        rw [hU, Nat.mod_eq_of_lt (by rw [hU, hwl] at hfit; omega)]
        rw [hget, bytesToWordsBE_getD (b.drop 2) i hi]
    · have hres : Memory.load_binary m b = (Except.error LoadError.oddSize, m) := by
        simp only [Memory.load_binary]
        rw [if_neg h1, if_pos (by omega)]
      refine ⟨?_, ?_, ?_⟩
      · rw [hres]
        exact iff_of_false (by simp) h1
      · intro _
        rw [hres]
        exact iff_of_true rfl (by omega)
      · intro _ heven
        exact absurd heven h2

/-- Witness for c2_load_binary_contract: the image 3000 DEAD, an
all-byte input that loads one word at 0x3000. -/
theorem c2_load_binary_contract_witness :
    (∀ x ∈ ([0x30, 0x00, 0xDE, 0xAD] : List Nat), x < 256) ∧
    (((Memory.load_binary memZero [0x30, 0x00, 0xDE, 0xAD]).1 =
        Except.error LoadError.tooLarge ↔
      (UINT16_MAX - beOrigin [0x30, 0x00, 0xDE, 0xAD]) * 2 <
        (([0x30, 0x00, 0xDE, 0xAD] : List Nat).drop 2).length) ∧
    ((([0x30, 0x00, 0xDE, 0xAD] : List Nat).drop 2).length ≤
        (UINT16_MAX - beOrigin [0x30, 0x00, 0xDE, 0xAD]) * 2 →
      ((Memory.load_binary memZero [0x30, 0x00, 0xDE, 0xAD]).1 =
          Except.error LoadError.oddSize ↔
        (([0x30, 0x00, 0xDE, 0xAD] : List Nat).drop 2).length % 2 = 1)) ∧
    ((([0x30, 0x00, 0xDE, 0xAD] : List Nat).drop 2).length ≤
        (UINT16_MAX - beOrigin [0x30, 0x00, 0xDE, 0xAD]) * 2 →
      (([0x30, 0x00, 0xDE, 0xAD] : List Nat).drop 2).length % 2 = 0 →
      (Memory.load_binary memZero [0x30, 0x00, 0xDE, 0xAD]).1 = Except.ok () ∧
      ∀ i, 2 * i + 1 < (([0x30, 0x00, 0xDE, 0xAD] : List Nat).drop 2).length →
        PyMemory.getitem (Memory.load_binary memZero [0x30, 0x00, 0xDE, 0xAD]).2
            (beOrigin [0x30, 0x00, 0xDE, 0xAD] + i) =
          (([0x30, 0x00, 0xDE, 0xAD] : List Nat).drop 2).getD (2 * i) 0 * 256 +
            (([0x30, 0x00, 0xDE, 0xAD] : List Nat).drop 2).getD (2 * i + 1) 0)) :=
  ⟨by decide, c2_load_binary_contract memZero [0x30, 0x00, 0xDE, 0xAD] (by decide)⟩

/-- Claim C2 counterexample: origin 0xFFFF with a one-word payload.  The
payload is one word while 0xFFFF - origin is zero words, so the claim as
stated demands the image-too-large error, yet load_binary succeeds (the
source threshold is 0x10000 - origin words). -/
theorem c2_threshold_counterexample :
    beOrigin [0xFF, 0xFF, 0xAB, 0xCD] = 0xFFFF ∧
    (0xFFFF - beOrigin [0xFF, 0xFF, 0xAB, 0xCD]) * 2 <
      (([0xFF, 0xFF, 0xAB, 0xCD] : List Nat).drop 2).length ∧
    (Memory.load_binary memZero [0xFF, 0xFF, 0xAB, 0xCD]).1 = Except.ok () :=
  ⟨rfl, by decide, rfl⟩

theorem appendH_some (data : List Nat) (w : Int) (out : List Nat)
    (h : appendH data w = some out) :
    out = data ++ [w.toNat] ∧ w.toNat < 65536 := by
  unfold appendH at h
  split_ifs at h with hc
  · obtain ⟨hc1, hc2⟩ := hc
    refine ⟨(Option.some.inj h).symm, ?_⟩
    omega

theorem strBytes_lt (s : String) : ∀ x ∈ strBytes s, x < 256 := by
  intro x hx
  simp only [strBytes, List.mem_map] at hx
  obtain ⟨b, _, rfl⟩ := hx
  exact b.toNat_lt

theorem condApply_shape (sym : SymTable) (data : List Nat) (toks : List Token)
    (lc : Int) (out : List Nat) (h : condApply sym data toks lc = some out) :
    ∃ t, out = data ++ t ∧ ∀ w ∈ t, w < 65536 := by
  simp only [condApply, bind, Option.bind_eq_some] at h
  obtain ⟨t0, h0, h⟩ := h
  split at h
  · exact absurd h (by simp)
  · split at h
    · -- .BLKW
      simp only [bind, Option.bind_eq_some] at h
      obtain ⟨t1, h1, h⟩ := h
      obtain ⟨n, h2, h⟩ := h
      refine ⟨List.replicate n.toNat 0, (Option.some.inj h).symm, ?_⟩
      intro w hw
      rw [List.eq_of_mem_replicate hw]
      omega
    · split at h
      · -- .FILL
        split at h
        · exact absurd h (by simp)
        · split at h
          · simp only [bind, Option.bind_eq_some] at h
            obtain ⟨n, h1, h⟩ := h
            obtain ⟨ho, hb⟩ := appendH_some data n out h
            exact ⟨[n.toNat], ho, by simpa using hb⟩
          · split at h
            · simp only [bind, Option.bind_eq_some] at h
              obtain ⟨v, h1, h⟩ := h
              obtain ⟨ho, hb⟩ := appendH_some data v out h
              exact ⟨[v.toNat], ho, by simpa using hb⟩
            · exact ⟨[], by simpa using (Option.some.inj h).symm, by simp⟩
      · split at h
        · -- .STRINGZ
          split at h
          · exact absurd h (by simp)
          · split at h
            · rename_i strv heqv
              refine ⟨strBytes strv ++ [0], ?_, ?_⟩
              · rw [← List.append_assoc]
                exact (Option.some.inj h).symm
              · intro w hw
                rcases List.mem_append.mp hw with hw | hw
                · have := strBytes_lt strv w hw
                  omega
                · simp at hw
                  omega
            · exact absurd h (by simp)
        · -- opcode mnemonic
          split at h
          · simp only [bind, Option.bind_eq_some] at h
            obtain ⟨w0, h1, h⟩ := h
            obtain ⟨ho, hb⟩ := appendH_some data (Int.ofNat w0) out h
            exact ⟨[(Int.ofNat w0).toNat], ho, by simpa using hb⟩
          · exact absurd h (by simp)

theorem passTwoLoop_shape (sym : SymTable) : ∀ (ls : List (List Token × Int))
    (data out : List Nat), passTwoLoop sym ls data = some out →
    ∃ t, out = data ++ t ∧ ∀ w ∈ t, w < 65536 := by
  intro ls
  induction ls with
  | nil =>
    intro data out h
    exact ⟨[], by simpa using (Option.some.inj h).symm, by simp⟩
  | cons hd tl ih =>
    intro data out h
    obtain ⟨toks, lc⟩ := hd
    simp only [passTwoLoop, bind, Option.bind_eq_some] at h
    obtain ⟨t0, h0, h⟩ := h
    split at h
    · exact ⟨[], by simpa using (Option.some.inj h).symm, by simp⟩
    · split at h
      · simp only [bind, Option.bind_eq_some] at h
        obtain ⟨d2, hc, hrec⟩ := h
        obtain ⟨t1, rfl, hb1⟩ := condApply_shape sym data toks lc d2 hc
        obtain ⟨t2, rfl, hb2⟩ := ih (data ++ t1) out hrec
        refine ⟨t1 ++ t2, by rw [List.append_assoc], ?_⟩
        intro w hw
        rcases List.mem_append.mp hw with hw | hw
        · exact hb1 w hw
        · exact hb2 w hw
      · split at h
        · simp only [bind, Option.bind_eq_some] at h
          obtain ⟨d2, hc, hrec⟩ := h
          obtain ⟨t1, rfl, hb1⟩ := condApply_shape sym data (toks.drop 1) lc d2 hc
          obtain ⟨t2, rfl, hb2⟩ := ih (data ++ t1) out hrec
          refine ⟨t1 ++ t2, by rw [List.append_assoc], ?_⟩
          intro w hw
          rcases List.mem_append.mp hw with hw | hw
          · exact hb1 w hw
          · exact hb2 w hw
        · exact ih data out h

theorem asm_pass_two_shape (sym : SymTable) (lines : List (List Token × Int))
    (W : List Nat) (h : asm_pass_two sym lines = some W) :
    ∃ o rest, W = o :: rest ∧ o < 65536 ∧ ∀ w ∈ rest, w < 65536 := by
  simp only [asm_pass_two, bind, Option.bind_eq_some] at h
  obtain ⟨first, h1, h⟩ := h
  obtain ⟨t1, h2, h⟩ := h
  obtain ⟨origin, h3, h⟩ := h
  obtain ⟨data0, h4, h⟩ := h
  obtain ⟨hd0, hb0⟩ := appendH_some [] origin data0 h4
  rw [List.nil_append] at hd0
  subst hd0
  obtain ⟨t, rfl, hbt⟩ := passTwoLoop_shape sym (lines.drop 1) _ W h
  exact ⟨origin.toNat, t, by simp, hb0, hbt⟩

/-- Claim C3, amended: for every source that assembles (given here by its
pass-one output), the object bytes are the big-endian serialization of
the pass-two words W, and - provided the image fits below the memory
top, origin + len(W) <= 0x10000 + 1 - loading those bytes into a fresh
VM succeeds and reproduces W[1:] at origin onward.  Without the fit
condition loading can fail (see the counterexample). -/
theorem c3_assemble_load_roundtrip (sym : SymTable)
    (lines : List (List Token × Int)) (W : List Nat)
    (h : asm_pass_two sym lines = some W)
    (hfit : W.headD 0 + W.length ≤ UINT16_MAX + 1) :
    assembleFromPassOne sym lines = some (sym, wordsToBytesBE W) ∧
    (Memory.load_binary memZero (wordsToBytesBE W)).1 = Except.ok () ∧
    ∀ i, i + 1 < W.length →
      PyMemory.getitem (Memory.load_binary memZero (wordsToBytesBE W)).2
        (W.headD 0 + i) = W.getD (i + 1) 0 := by
  obtain ⟨o, rest, rfl, ho, hrest⟩ := asm_pass_two_shape sym lines W h
  rw [List.headD_cons, List.length_cons] at hfit
  have hU : UINT16_MAX = 65536 := rfl
  rw [hU] at hfit
  have hser : wordsToBytesBE (o :: rest) =
      o / 256 :: o % 256 :: wordsToBytesBE rest := rfl
  have horg : beOrigin (wordsToBytesBE (o :: rest)) = o := by
    rw [hser]
    show o / 256 * 256 + o % 256 = o
    omega
  have hdrop : (wordsToBytesBE (o :: rest)).drop 2 = wordsToBytesBE rest := by
    rw [hser]
    rfl
  have hplen : (wordsToBytesBE rest).length = 2 * rest.length :=
    wordsToBytesBE_length rest
  have hfit2 : (bytesToWordsBE (wordsToBytesBE rest)).length + o ≤ UINT16_MAX := by
    rw [bytesToWordsBE_wordsToBytesBE, hU]
    omega
  have hres : Memory.load_binary memZero (wordsToBytesBE (o :: rest)) =
      (Except.ok (), writeSeq memZero o rest) := by
    simp only [Memory.load_binary]
    rw [hdrop, horg]
    rw [if_neg (by rw [hU, hplen]; omega)]
    rw [if_neg (by rw [hplen]; omega)]
    rw [Memory.load_words_at_address, if_pos hfit2,
      bytesToWordsBE_wordsToBytesBE]
  refine ⟨by simp [assembleFromPassOne, h], by rw [hres], ?_⟩
  intro i hi
  rw [List.length_cons] at hi
  rw [List.headD_cons, hres]
  show writeSeq memZero o rest ((o + i) % UINT16_MAX) = (o :: rest).getD (i + 1) 0
  rw [hU, Nat.mod_eq_of_lt (by omega)]
  rw [writeSeq_get rest memZero o i (by omega) (by omega)]
  simp [List.getD_cons_succ]

/-- Witness for c3_assemble_load_roundtrip: the program
.ORIG x3000 / HALT assembles to the words [0x3000, 0xF025]; its object
bytes load back to a memory holding 0xF025 at 0x3000. -/
theorem c3_assemble_load_roundtrip_witness :
    (asm_pass_two symW linesW = some [0x3000, 0xF025]) ∧
    (([0x3000, 0xF025] : List Nat).headD 0 +
        ([0x3000, 0xF025] : List Nat).length ≤ UINT16_MAX + 1) ∧
    (assembleFromPassOne symW linesW =
        some (symW, wordsToBytesBE [0x3000, 0xF025]) ∧
      (Memory.load_binary memZero (wordsToBytesBE [0x3000, 0xF025])).1 =
        Except.ok () ∧
      ∀ i, i + 1 < ([0x3000, 0xF025] : List Nat).length →
        PyMemory.getitem
            (Memory.load_binary memZero (wordsToBytesBE [0x3000, 0xF025])).2
            (([0x3000, 0xF025] : List Nat).headD 0 + i) =
          ([0x3000, 0xF025] : List Nat).getD (i + 1) 0) :=
  ⟨by decide, by decide,
    c3_assemble_load_roundtrip symW linesW [0x3000, 0xF025]
      (by decide) (by decide)⟩

/-- Claim C3 counterexample: the valid source .ORIG xFFFF / HALT / HALT
assembles to [0xFFFF, 0xF025, 0xF025], yet loading its object bytes into
a fresh VM raises the image-too-large error instead of yielding the
emitted words in memory. -/
theorem c3_roundtrip_counterexample :
    asm_pass_two symW linesBad = some [0xFFFF, 0xF025, 0xF025] ∧
    (Memory.load_binary memZero
        (wordsToBytesBE [0xFFFF, 0xF025, 0xF025])).1 =
      Except.error LoadError.tooLarge :=
  ⟨by decide, rfl⟩

end Y2kLc3
